import Mathlib

/-!
# Verification of the capture-output pipeline of `screenshot-website-fast`

Shallow embedding of the frame-deduplication / animated-WebP assembly
algorithm, the screencast interval policy, the request validation, the
filename generation and the handler plumbing of `src/serve.ts`, together
with proofs of the behavioural properties claimed for them.
-/

namespace ScreenshotFast

/-- A raw pixel buffer (a Node `Buffer`), modelled as its byte sequence. -/
abbrev ByteBuf := List Nat

/-- One entry of the `uniqueFrames` list built inside `createAnimatedWebP`
(`src/serve.ts` lines 269-282): a representative buffer, an accumulated
display duration in milliseconds, and the content hash of the buffer.
The hash type is a parameter; the source uses a SHA-1 hex digest. -/
structure UniqueFrame (H : Type) where
  buf : ByteBuf
  duration : Nat
  hash : H
deriving Repr, DecidableEq

/-- The body of the duplicate-collapsing loop of `createAnimatedWebP`
(`for (const buf of frames) ...`, lines 271-282), written as structural
recursion carrying the run currently being extended (the source's
`uniqueFrames[uniqueFrames.length - 1]`): a frame whose hash equals the
current run's hash extends that run's duration by `delay`, otherwise the
current run is emitted and a fresh run with duration `delay` starts. -/
def dedupGo {H : Type} [DecidableEq H] (hashFn : ByteBuf → H) (delay : Nat)
    (cur : UniqueFrame H) : List ByteBuf → List (UniqueFrame H)
  | [] => [cur]
  | b :: rest =>
    if hashFn b = cur.hash then
      dedupGo hashFn delay { cur with duration := cur.duration + delay } rest
    else
      cur :: dedupGo hashFn delay { buf := b, duration := delay, hash := hashFn b } rest

/-- The duplicate-collapsing pass of `createAnimatedWebP`: fold the frames
in order into a list of `UniqueFrame` runs (`src/serve.ts` lines 268-282).
An empty input yields no runs, matching the loop never executing. -/
def dedupFrames {H : Type} [DecidableEq H] (hashFn : ByteBuf → H) (delay : Nat) :
    List ByteBuf → List (UniqueFrame H)
  | [] => []
  | b :: rest =>
      dedupGo hashFn delay { buf := b, duration := delay, hash := hashFn b } rest

/-- Overwrite the duration of the last run
(`uniqueFrames[uniqueFrames.length - 1].duration = endDelay`). -/
def setLastDuration {H : Type} (d : Nat) : List (UniqueFrame H) → List (UniqueFrame H)
  | [] => []
  | [r] => [{ r with duration := d }]
  | r :: r' :: rest => r :: setLastDuration d (r' :: rest)

/-- The end-delay step of `createAnimatedWebP` (`src/serve.ts` lines 285-287):
`if (endDelay && uniqueFrames.length > 0)` — note the JavaScript truthiness
test, under which an `endDelay` of `0` (like an absent one) applies no
override. -/
def applyEndDelay {H : Type} (endDelay : Option Nat) (runs : List (UniqueFrame H)) :
    List (UniqueFrame H) :=
  match endDelay with
  | none => runs
  | some d => if d ≠ 0 then setLastDuration d runs else runs

/-- The `format` enum of the `take_screencast` tool: `'png' | 'webp'`. -/
inductive ScreencastFormat
  | png
  | webp
deriving Repr, DecidableEq

/-- The `quality` enum of the `take_screencast` tool. -/
inductive Quality
  | low
  | medium
  | high
deriving Repr, DecidableEq

/-- The img2webp `-q` value for a quality tier:
`quality === 'high' ? 90 : quality === 'medium' ? 75 : 50` (line 303). -/
def qualityValue : Quality → Nat
  | .high => 90
  | .medium => 75
  | .low => 50

/-- JavaScript truthiness of the optional `directory` string argument:
`undefined` and the empty string are both falsy. -/
def dirTruthy : Option String → Bool
  | none => false
  | some s => !(s == "")

/-- `const format = args.format ?? 'webp'` (line 493). -/
def effectiveFormat (format : Option ScreencastFormat) : ScreencastFormat :=
  format.getD ScreencastFormat.webp

/-- The persistence test guarding adaptive intervals:
`args.directory && format === 'webp'` (line 500). -/
def willPersistAsAnimation (directory : Option String)
    (format : Option ScreencastFormat) : Bool :=
  dirTruthy directory && (effectiveFormat format == ScreencastFormat.webp)

/-- The interval selection of the `take_screencast` handler
(lines 499-511): adaptive 0.1 / 0.2 / 0.5 seconds by duration when the
output will be persisted as an animated asset, otherwise a fixed
2 seconds for inline base64 returns. -/
def decideScreencastInterval (duration : ℚ) (willPersist : Bool) : ℚ :=
  if willPersist then
    if duration ≤ 5 then 1/10
    else if duration ≤ 10 then 1/5
    else 1/2
  else 2

/-- The format-parameter validation at the top of the `take_screencast`
handler (lines 486-490): `if (args.format && !args.directory) throw ...`.
Any supplied format value is truthy (the enum strings are non-empty), so
any explicit `format` without a truthy `directory` throws. -/
def validateScreencastFormat (format : Option ScreencastFormat)
    (directory : Option String) : Except String Unit :=
  if format.isSome && !(dirTruthy directory) then
    Except.error
      "The \"format\" parameter can only be used when \"directory\" parameter is specified"
  else
    Except.ok ()

/-- The `jsEvaluate` argument: a single instruction or an ordered
sequence of instructions. -/
inductive JsEvaluate
  | single (code : String)
  | sequence (codes : List String)
deriving Repr, DecidableEq

/-- Parsed arguments of a `take_screenshot` request. -/
structure ScreenshotArgs where
  url : String
  width : Option Nat
  fullPage : Option Bool
  waitUntil : Option String
  waitForMS : Option Nat
  directory : Option String
deriving Repr, DecidableEq

/-- Parsed arguments of a `take_screencast` request. -/
structure ScreencastArgs where
  url : String
  duration : Option ℚ
  width : Option Nat
  height : Option Nat
  jsEvaluate : Option JsEvaluate
  waitUntil : Option String
  directory : Option String
  format : Option ScreencastFormat
  quality : Option Quality
deriving Repr, DecidableEq

/-- The options record the handler passes to the engine's
`captureScreenshot` (lines 361-369). -/
structure CaptureScreenshotOptions where
  url : String
  viewportWidth : Nat
  fullPage : Bool
  waitUntil : String
  waitFor : Option Nat
deriving Repr, DecidableEq

/-- Construction of the `captureScreenshot` options (lines 361-369):
width capped by `Math.min(args.width ?? 1072, 1072)`, `waitFor`
forwarded from `args.waitForMS`. -/
def buildCaptureScreenshotOptions (args : ScreenshotArgs) : CaptureScreenshotOptions :=
  { url := args.url
    viewportWidth := min (args.width.getD 1072) 1072
    fullPage := args.fullPage.getD true
    waitUntil := args.waitUntil.getD "domcontentloaded"
    waitFor := args.waitForMS }

/-- The options record the handler passes to the engine's
`captureScreencast` (lines 531-542). -/
structure CaptureScreencastOptions where
  url : String
  duration : ℚ
  interval : ℚ
  viewportWidth : Nat
  viewportHeight : Nat
  waitUntil : String
  waitFor : Option Nat
  jsEvaluate : Option JsEvaluate
deriving Repr, DecidableEq

/-- Construction of the `captureScreencast` options (lines 492-542):
duration defaulted to 10, width and height capped at 1072, interval from
the adaptive policy, and `waitFor: undefined, // Removed waitForMS`
(line 540) — the caller-supplied extra wait is never forwarded. -/
def buildCaptureScreencastOptions (args : ScreencastArgs) : CaptureScreencastOptions :=
  { url := args.url
    duration := args.duration.getD 10
    interval := decideScreencastInterval (args.duration.getD 10)
      (willPersistAsAnimation args.directory args.format)
    viewportWidth := min (args.width.getD 1072) 1072
    viewportHeight := min (args.height.getD 1072) 1072
    waitUntil := args.waitUntil.getD "domcontentloaded"
    waitFor := none
    jsEvaluate := args.jsEvaluate }

/-- The `take_screencast` handler up to (and including) deciding the
engine call: the format validation runs first and a validation error is
thrown before the engine is ever invoked (lines 486-542). -/
def screencastEngineCall (args : ScreencastArgs) :
    Except String CaptureScreencastOptions :=
  match validateScreencastFormat args.format args.directory with
  | .error e => .error e
  | .ok () => .ok (buildCaptureScreencastOptions args)

/-- `urlObj.hostname.replace(/[^a-z0-9]/gi, '_')` (line 233): every
character that is not an ASCII letter or digit becomes an underscore. -/
def sanitizeHostname (hostname : String) : String :=
  String.mk (hostname.data.map fun c => if c.isAlphanum then c else '_')

/-- `new Date().toISOString().replace(/[:.]/g, '-')` (line 234): every
colon and dot of the ISO timestamp becomes a dash. -/
def sanitizeTimestamp (iso : String) : String :=
  String.mk (iso.data.map fun c => if c = ':' ∨ c = '.' then '-' else c)

/-- The extension-free part of a generated filename:
`prefix_hostname_timestamp[_frameN]`.  `generateFilename` appends `.png`
to this stem.  URL parsing (`new URL(url).hostname`) and the clock
(`new Date().toISOString()`) are environment inputs, passed as the
already-extracted hostname and ISO timestamp strings. -/
def filenameStem (hostname iso : String) (index : Option Nat) (pre : String) : String :=
  let suffix := match index with
    | some i => "_frame" ++ toString (i + 1)
    | none => ""
  pre ++ "_" ++ sanitizeHostname hostname ++ "_" ++ sanitizeTimestamp iso ++ suffix

/-- `generateFilename` (lines 227-237). The default prefix at the call
sites without an explicit one is "screenshot". -/
def generateFilename (hostname iso : String) (index : Option Nat) (pre : String) : String :=
  filenameStem hostname iso index pre ++ ".png"

/-- The animated-asset filename (lines 610-614):
`generateFilename(url, undefined, 'screencast').replace('.png', '.webp')`.
The stem contains no dot (sanitisation replaces every dot), so the single
`.png` occurrence replaced by the JavaScript first-occurrence `replace`
is exactly the final extension. -/
def webpFilename (hostname iso : String) : String :=
  filenameStem hostname iso none "screencast" ++ ".webp"

/-- `join(directory, filename)` on a POSIX path. -/
def joinPath (dir name : String) : String := dir ++ "/" ++ name

/-- `framePaths.join('\n')`. -/
def joinLines (l : List String) : String := String.intercalate "\n" l

/-- One filesystem write performed by the materializer: target path and
written bytes. -/
structure FileWrite where
  path : String
  content : ByteBuf
deriving Repr, DecidableEq

/-- The individual-PNG-frames loop of the `take_screencast` handler
(lines 564-580): one file per frame, prefix "frame", one fresh clock
reading per generated filename (`ts i`). -/
def pngFrameWrites (directory hostname : String) (ts : Nat → String)
    (frames : List ByteBuf) : List FileWrite :=
  frames.enum.map fun p =>
    { path := joinPath directory (generateFilename hostname (ts p.1) (some p.1) "frame")
      content := p.2 }

/-- The WebP-failure fallback loop (lines 628-644); the source duplicates
the individual-frames loop verbatim. -/
def fallbackFrameWrites (directory hostname : String) (ts : Nat → String)
    (frames : List ByteBuf) : List FileWrite :=
  frames.enum.map fun p =>
    { path := joinPath directory (generateFilename hostname (ts p.1) (some p.1) "frame")
      content := p.2 }

/-- The tiled-screenshot save loop of the `take_screenshot` handler
(lines 397-403): prefix "screenshot" (the default). -/
def screenshotTileWrites (directory hostname : String) (ts : Nat → String)
    (tiles : List ByteBuf) : List FileWrite :=
  tiles.enum.map fun p =>
    { path := joinPath directory (generateFilename hostname (ts p.1) (some p.1) "screenshot")
      content := p.2 }

/-- The single-screenshot save (lines 414-418). -/
def screenshotSingleWrite (directory hostname iso : String) (buf : ByteBuf) : FileWrite :=
  { path := joinPath directory (generateFilename hostname iso none "screenshot")
    content := buf }

/-- The `try/catch` around `createAnimatedWebP` in the handler
(lines 594-607): a successful encode yields the buffer, any encoder
failure is caught and leaves `webpBuffer = null`. -/
def caughtWebpBuffer (webpOutcome : Except String ByteBuf) : Option ByteBuf :=
  match webpOutcome with
  | .ok b => some b
  | .error _ => none

/-- The text of the png-format success response (line 586). -/
def pngFramesText (framePaths : List String) (durationText : String)
    (frameCount : Nat) (intervalText : String) : String :=
  "✅ Screencast saved as PNG frames:\n" ++ joinLines framePaths ++
    "\n\nDuration: " ++ durationText ++ "s\nFrames: " ++ toString frameCount ++
    "\nInterval: " ++ intervalText ++ "s"

/-- The text of the animated-WebP success response (line 622). -/
def webpSuccessText (filepath durationText : String) (frameCount : Nat)
    (intervalMsText qualityText : String) : String :=
  "✅ Screencast saved as animated WebP: " ++ filepath ++
    "\n\nDuration: " ++ durationText ++ "s\nFrames: " ++ toString frameCount ++
    "\nCapture Interval: " ++ intervalMsText ++ "ms (4s pause at end)\nQuality: " ++
    qualityText ++ "\nMethod: img2webp (optimized with frame deduplication)"

/-- The text of the WebP-failure fallback response (line 650). -/
def webpFallbackText (framePaths : List String) (durationText : String)
    (frameCount : Nat) (intervalText : String) : String :=
  "⚠️  WebP creation failed, saved as PNG frames:\n" ++ joinLines framePaths ++
    "\n\nDuration: " ++ durationText ++ "s\nFrames: " ++ toString frameCount ++
    "\nInterval: " ++ intervalText ++ "s"

/-- The outcome of the directory branch of the `take_screencast` handler:
the files it writes and the text content of the response. -/
structure ScreencastSaveResult where
  writes : List FileWrite
  text : String
deriving Repr, DecidableEq

/-- The directory branch of the `take_screencast` handler
(lines 548-655), after the `try/catch` has been applied: png format
writes individual frames; webp format with an encoded buffer writes the
single animated asset; webp format whose encode failed falls back to the
individual-frame writes with a warning text.  The numeric fields rendered
into the texts (`result.duration`, `interval`, `interval * 1000`,
`quality`) are passed as their already-rendered strings. -/
def screencastDirectorySave (directory hostname : String) (ts : Nat → String)
    (format : ScreencastFormat) (frames : List ByteBuf)
    (durationText intervalText intervalMsText qualityText : String)
    (webpBuffer : Option ByteBuf) : ScreencastSaveResult :=
  match format with
  | .png =>
      let writes := pngFrameWrites directory hostname ts frames
      { writes := writes
        text := pngFramesText (writes.map FileWrite.path) durationText
          frames.length intervalText }
  | .webp =>
      match webpBuffer with
      | some buf =>
          let filepath := joinPath directory (webpFilename hostname (ts 0))
          { writes := [{ path := filepath, content := buf }]
            text := webpSuccessText filepath durationText frames.length
              intervalMsText qualityText }
      | none =>
          let writes := fallbackFrameWrites directory hostname ts frames
          { writes := writes
            text := webpFallbackText (writes.map FileWrite.path) durationText
              frames.length intervalText }

/-- The directory branch including the `try/catch` around
`createAnimatedWebP`: the branch always returns a successful response —
an encoder failure is caught (line 604-607) and handled by the fallback,
never rethrown to the protocol caller. -/
def screencastDirectoryBranch (directory hostname : String) (ts : Nat → String)
    (format : ScreencastFormat) (frames : List ByteBuf)
    (durationText intervalText intervalMsText qualityText : String)
    (webpOutcome : Except String ByteBuf) : Except String ScreencastSaveResult :=
  Except.ok (screencastDirectorySave directory hostname ts format frames
    durationText intervalText intervalMsText qualityText
    (caughtWebpBuffer webpOutcome))

/-- Filesystem / process effects performed by `createAnimatedWebP`
(lines 240-331), in source order. -/
inductive FsEvent
  | mkTempDir
  | writeFrameFile (i : Nat) (content : ByteBuf)
  | execEncoder (binary : String) (args : List String)
  | readOutput
  | rmTempDir
deriving Repr, DecidableEq

/-- Platform-based encoder binary selection (lines 258-261):
`platform === 'darwin' ? 'img2webp-darwin' : 'img2webp-linux'`.  There is
no unsupported-platform branch: every non-darwin platform resolves to the
linux binary. -/
def selectBinaryName (platform : String) : String :=
  if platform = "darwin" then "img2webp-darwin" else "img2webp-linux"

/-- The img2webp CLI argument list (lines 296-314): minimize-size flag,
mixed compression, infinite loop, quality value, compression method 6,
one duration-tagged frame argument per run in order, then the output. -/
def img2webpArgs {H : Type} (quality : Quality) (runs : List (UniqueFrame H)) :
    List String :=
  ["-min_size", "-mixed", "-loop", "0",
    "-q", toString (qualityValue quality), "-m", "6"] ++
  (runs.enum.map fun p =>
    ["-d", toString p.2.duration, "f" ++ toString p.1 ++ ".png"]).flatten ++
  ["-o", "out.webp"]

/-- The effect trace and result of one `createAnimatedWebP` call
(lines 240-331): resolve the binary from the platform, create the scoped
temporary directory, write one PNG per unique run, invoke the encoder and
read back the asset (their combined outcome injected as `encoder`), and
remove the temporary directory both on the success path (line 323) and in
the catch branch before rethrowing (lines 326-330). -/
def createAnimatedWebPRun {H : Type} [DecidableEq H] (hashFn : ByteBuf → H)
    (platform : String) (frames : List ByteBuf) (delay : Nat)
    (endDelay : Option Nat) (quality : Quality)
    (encoder : Except String ByteBuf) : List FsEvent × Except String ByteBuf :=
  let binary := selectBinaryName platform
  let runs := applyEndDelay endDelay (dedupFrames hashFn delay frames)
  let writes := runs.enum.map fun p => FsEvent.writeFrameFile p.1 p.2.buf
  match encoder with
  | .ok buf =>
      ((FsEvent.mkTempDir :: writes ++
          [FsEvent.execEncoder binary (img2webpArgs quality runs),
            FsEvent.readOutput]) ++
        [FsEvent.rmTempDir], .ok buf)
  | .error e =>
      ((FsEvent.mkTempDir :: writes ++
          [FsEvent.execEncoder binary (img2webpArgs quality runs)]) ++
        [FsEvent.rmTempDir], .error e)

/-- Result returned by the engine's `captureScreenshot`, shape-tagged by
the presence of `tiles` (line 374): a single viewport image or a tiled
full page. -/
inductive ScreenshotResult
  | regular (screenshot : ByteBuf) (viewportWidth viewportHeight : Nat)
  | tiled (tiles : List ByteBuf) (fullWidth fullHeight tileSize : Nat)
deriving Repr, DecidableEq

/-- One element of a protocol response's `content` array. -/
inductive ContentItem
  | image (buf : ByteBuf)
  | text (s : String)
deriving Repr, DecidableEq

/-- The inline (no-directory) response of `take_screenshot`
(lines 430-470): each image, then one summary text entry built only from
the engine's result. -/
def screenshotInlineResponse : ScreenshotResult → List ContentItem
  | .tiled tiles fw fh tsz =>
      (tiles.map ContentItem.image) ++
      [ContentItem.text ("✅ Captured " ++ toString tiles.length ++ " tiles (" ++
        toString tsz ++ "x" ++ toString tsz ++ " each) from page measuring " ++
        toString fw ++ "x" ++ toString fh ++ " pixels")]
  | .regular s w h =>
      [ContentItem.image s,
        ContentItem.text ("✅ Screenshot captured: " ++ toString w ++ "x" ++
          toString h ++ " pixels")]

/-- A complete protocol tool response: the files the handler wrote and
the `content` array it returned. -/
structure ToolResponse where
  writes : List FileWrite
  content : List ContentItem
deriving Repr, DecidableEq

/-- The directory branch of the `take_screenshot` handler
(lines 378-428): save each tile (or the single image) and return a text
summary of the written paths and the result's dimensions. -/
def screenshotDirectoryResponse (directory hostname : String) (ts : Nat → String) :
    ScreenshotResult → ToolResponse
  | .tiled tiles fw fh tsz =>
      let writes := screenshotTileWrites directory hostname ts tiles
      { writes := writes
        content := [ContentItem.text ("✅ Saved " ++ toString tiles.length ++
          " screenshot tiles to:\n" ++ joinLines (writes.map FileWrite.path) ++
          "\n\nPage size: " ++ toString fw ++ "x" ++ toString fh ++
          " pixels\nTile size: " ++ toString tsz ++ "x" ++ toString tsz ++
          " pixels")] }
  | .regular s w h =>
      let fw := screenshotSingleWrite directory hostname (ts 0) s
      { writes := [fw]
        content := [ContentItem.text ("✅ Screenshot saved to: " ++ fw.path ++
          "\n\nDimensions: " ++ toString w ++ "x" ++ toString h ++ " pixels")] }

/-- The whole `take_screenshot` handler (lines 339-471): build the capped
engine options, call the engine (an external collaborator, passed as a
parameter), then either save to the directory (`if (args.directory)`,
JS truthiness) or answer inline. -/
def takeScreenshotHandler (engine : CaptureScreenshotOptions → ScreenshotResult)
    (hostname : String) (ts : Nat → String) (args : ScreenshotArgs) : ToolResponse :=
  let result := engine (buildCaptureScreenshotOptions args)
  if dirTruthy args.directory then
    screenshotDirectoryResponse (args.directory.getD "") hostname ts result
  else
    { writes := [], content := screenshotInlineResponse result }

/-- Result returned by the engine's `captureScreencast`: the captured
frame buffers plus the duration and interval it reports back. -/
structure ScreencastResult where
  frames : List ByteBuf
  duration : ℚ
  interval : ℚ
deriving Repr, DecidableEq

/-- The enum string rendered into the webp response text for the
`quality` local (`args.quality ?? 'medium'`, line 496). -/
def qualityLabel : Quality → String
  | .low => "low"
  | .medium => "medium"
  | .high => "high"

/-- The inline (no-directory) response of `take_screencast`
(lines 656-675): each frame as an image, then one summary text entry.
JavaScript number rendering is the environment parameter `showQ`. -/
def screencastInlineResponse (showQ : ℚ → String) (result : ScreencastResult) :
    List ContentItem :=
  (result.frames.map ContentItem.image) ++
  [ContentItem.text ("✅ Captured " ++ toString result.frames.length ++
    " frames over " ++ showQ result.duration ++ " seconds (" ++
    showQ result.interval ++ "s interval)")]

/-- Lift the directory-branch outcome into a full tool response: its
writes plus a single text content entry. -/
def saveResultResponse (r : ScreencastSaveResult) : ToolResponse :=
  { writes := r.writes, content := [ContentItem.text r.text] }

/-- The whole `take_screencast` handler (lines 472-676): format
validation first (a failure is thrown before the engine is called), then
the capped engine options, the engine call, and either the directory
branch (png frames / webp asset / webp-failure fallback, with the
encoder-plus-readback outcome injected as `encoder`) or the inline
response.  `showQ` renders the numbers interpolated into the texts. -/
def takeScreencastHandler (engine : CaptureScreencastOptions → ScreencastResult)
    (encoder : Except String ByteBuf) (hostname : String) (ts : Nat → String)
    (showQ : ℚ → String) (args : ScreencastArgs) : Except String ToolResponse :=
  match validateScreencastFormat args.format args.directory with
  | .error e => .error e
  | .ok () =>
      let interval := decideScreencastInterval (args.duration.getD 10)
        (willPersistAsAnimation args.directory args.format)
      let result := engine (buildCaptureScreencastOptions args)
      if dirTruthy args.directory then
        .ok (saveResultResponse (screencastDirectorySave (args.directory.getD "")
          hostname ts (effectiveFormat args.format) result.frames
          (showQ result.duration) (showQ interval) (showQ (interval * 1000))
          (qualityLabel (args.quality.getD Quality.medium))
          (caughtWebpBuffer encoder)))
      else
        .ok { writes := [], content := screencastInlineResponse showQ result }

/-- A concrete sample screenshot engine for witnesses: echoes the
requested viewport width. -/
def sampleEngine : CaptureScreenshotOptions → ScreenshotResult :=
  fun o => ScreenshotResult.regular [0] o.viewportWidth 768

/-- A concrete sample screencast engine for witnesses: one frame,
echoing back the requested duration and interval. -/
def sampleScreencastEngine : CaptureScreencastOptions → ScreencastResult :=
  fun o => { frames := [[7]], duration := o.duration, interval := o.interval }

/-- A concrete rendering of rationals for witnesses. -/
def sampleShowQ : ℚ → String := fun q => toString q

/-- A concrete `take_screenshot` request with all optional fields absent. -/
def sampleScreenshotArgs : ScreenshotArgs :=
  { url := "http://example.com", width := none, fullPage := none,
    waitUntil := none, waitForMS := none, directory := none }

/-- A concrete `take_screencast` request with all optional fields absent. -/
def sampleScreencastArgs : ScreencastArgs :=
  { url := "http://example.com", duration := none, width := none,
    height := none, jsEvaluate := none, waitUntil := none, directory := none,
    format := none, quality := none }

/-- A concrete `take_screencast` request supplying `format = png` and no
directory, used to exercise the validation path. -/
def samplePngNoDirArgs : ScreencastArgs :=
  { url := "http://example.com", duration := none, width := none,
    height := none, jsEvaluate := none, waitUntil := none, directory := none,
    format := some ScreencastFormat.png, quality := none }

section DedupLemmas

variable {H : Type} [DecidableEq H] (hashFn : ByteBuf → H) (delay : Nat)

theorem length_dedupGo_le (l : List ByteBuf) :
    ∀ cur : UniqueFrame H, (dedupGo hashFn delay cur l).length ≤ l.length + 1 := by
  induction l with
  | nil => intro cur; simp [dedupGo]
  | cons b rest ih =>
      intro cur
      by_cases h : hashFn b = cur.hash
      · simp only [dedupGo, if_pos h]
        exact le_trans (ih _) (by simp)
      · simp only [dedupGo, if_neg h, List.length_cons]
        exact Nat.succ_le_succ (ih _)

theorem length_dedupFrames_le (frames : List ByteBuf) :
    (dedupFrames hashFn delay frames).length ≤ frames.length := by
  cases frames with
  | nil => simp [dedupFrames]
  | cons b rest => exact length_dedupGo_le hashFn delay rest _

theorem headHash_dedupGo (l : List ByteBuf) :
    ∀ cur : UniqueFrame H,
      ((dedupGo hashFn delay cur l).head?).map UniqueFrame.hash = some cur.hash := by
  induction l with
  | nil => intro cur; simp [dedupGo]
  | cons b rest ih =>
      intro cur
      by_cases h : hashFn b = cur.hash
      · simp only [dedupGo, if_pos h]
        exact ih _
      · simp [dedupGo, if_neg h]

theorem chain_hash_dedupGo (l : List ByteBuf) :
    ∀ cur : UniqueFrame H,
      List.Chain' (fun a b : UniqueFrame H => a.hash ≠ b.hash)
        (dedupGo hashFn delay cur l) := by
  induction l with
  | nil => intro cur; simp [dedupGo]
  | cons b rest ih =>
      intro cur
      by_cases h : hashFn b = cur.hash
      · simp only [dedupGo, if_pos h]
        exact ih _
      · simp only [dedupGo, if_neg h]
        rw [List.chain'_cons']
        constructor
        · intro y hy
          have := headHash_dedupGo hashFn delay rest
            { buf := b, duration := delay, hash := hashFn b }
          rw [hy] at this
          simp at this
          rw [this]
          exact fun hc => h hc.symm
        · exact ih _

theorem chain_hash_dedupFrames (frames : List ByteBuf) :
    List.Chain' (fun a b : UniqueFrame H => a.hash ≠ b.hash)
      (dedupFrames hashFn delay frames) := by
  cases frames with
  | nil => simp [dedupFrames]
  | cons b rest => exact chain_hash_dedupGo hashFn delay rest _

theorem length_dedupGo_eq_iff (inj : Function.Injective hashFn) (l : List ByteBuf) :
    ∀ cur : UniqueFrame H, cur.hash = hashFn cur.buf →
      ((dedupGo hashFn delay cur l).length = l.length + 1 ↔
        List.Chain' (fun a b : ByteBuf => a ≠ b) (cur.buf :: l)) := by
  induction l with
  | nil => intro cur _; simp [dedupGo]
  | cons b rest ih =>
      intro cur hc
      by_cases h : hashFn b = cur.hash
      · have hb : b = cur.buf := inj (by rw [h, hc])
        simp only [dedupGo, if_pos h, List.length_cons]
        constructor
        · intro hlen
          exfalso
          have := length_dedupGo_le hashFn delay rest
            { cur with duration := cur.duration + delay }
          omega
        · intro hch
          exfalso
          rw [List.chain'_cons] at hch
          exact hch.1 hb.symm
      · have hb : cur.buf ≠ b := fun he => h (by rw [← he, ← hc])
        simp only [dedupGo, if_neg h, List.length_cons]
        rw [List.chain'_cons]
        have := ih { buf := b, duration := delay, hash := hashFn b } rfl
        constructor
        · intro hlen
          exact ⟨hb, (this.mp (by omega))⟩
        · intro hch
          have := this.mpr hch.2
          omega

theorem length_dedupFrames_eq_iff (inj : Function.Injective hashFn)
    (frames : List ByteBuf) :
    (dedupFrames hashFn delay frames).length = frames.length ↔
      List.Chain' (fun a b : ByteBuf => a ≠ b) frames := by
  cases frames with
  | nil => simp [dedupFrames]
  | cons b rest =>
      simp only [dedupFrames, List.length_cons]
      exact length_dedupGo_eq_iff hashFn delay inj rest
        { buf := b, duration := delay, hash := hashFn b } rfl

theorem sum_durations_dedupGo (l : List ByteBuf) :
    ∀ cur : UniqueFrame H,
      ((dedupGo hashFn delay cur l).map UniqueFrame.duration).sum =
        cur.duration + delay * l.length := by
  induction l with
  | nil => intro cur; simp [dedupGo]
  | cons b rest ih =>
      intro cur
      by_cases h : hashFn b = cur.hash
      · simp only [dedupGo, if_pos h]
        rw [ih]
        simp only [List.length_cons]
        ring
      · simp only [dedupGo, if_neg h, List.map_cons, List.sum_cons]
        rw [ih]
        simp only [List.length_cons]
        ring

theorem sum_durations_dedupFrames (frames : List ByteBuf) :
    ((dedupFrames hashFn delay frames).map UniqueFrame.duration).sum =
      delay * frames.length := by
  cases frames with
  | nil => simp [dedupFrames]
  | cons b rest =>
      rw [dedupFrames, sum_durations_dedupGo]
      simp only [List.length_cons]
      ring

theorem duration_mem_dedupGo (l : List ByteBuf) :
    ∀ cur : UniqueFrame H, ∀ k₀ : Nat, 0 < k₀ → cur.duration = delay * k₀ →
      ∀ r ∈ dedupGo hashFn delay cur l, ∃ k, 0 < k ∧ r.duration = delay * k := by
  induction l with
  | nil =>
      intro cur k₀ hk hd r hr
      simp [dedupGo] at hr
      exact ⟨k₀, hk, by rw [hr, hd]⟩
  | cons b rest ih =>
      intro cur k₀ hk hd r hr
      by_cases h : hashFn b = cur.hash
      · simp only [dedupGo, if_pos h] at hr
        exact ih _ (k₀ + 1) (by omega) (by simp [hd]; ring) r hr
      · simp only [dedupGo, if_neg h, List.mem_cons] at hr
        rcases hr with hr | hr
        · exact ⟨k₀, hk, by rw [hr, hd]⟩
        · exact ih _ 1 (by omega) (by simp) r hr

theorem duration_mem_dedupFrames (frames : List ByteBuf) :
    ∀ r ∈ dedupFrames hashFn delay frames, ∃ k, 0 < k ∧ r.duration = delay * k := by
  cases frames with
  | nil => simp [dedupFrames]
  | cons b rest =>
      exact duration_mem_dedupGo hashFn delay rest _ 1 (by omega) (by simp)

end DedupLemmas

section EndDelayLemmas

variable {H : Type}

theorem setLastDuration_concat (d : Nat) (l : List (UniqueFrame H)) (r : UniqueFrame H) :
    setLastDuration d (l ++ [r]) = l ++ [{ r with duration := d }] := by
  induction l with
  | nil => rfl
  | cons a l ih =>
      cases l with
      | nil => rfl
      | cons b l' => simpa [setLastDuration] using ih

theorem setLastDuration_getLast (d : Nat) (l : List (UniqueFrame H)) (h : l ≠ []) :
    ((setLastDuration d l).getLast?).map UniqueFrame.duration = some d := by
  conv_lhs => rw [← List.dropLast_append_getLast h]
  rw [setLastDuration_concat, List.getLast?_concat]
  rfl

theorem setLastDuration_dropLast (d : Nat) (l : List (UniqueFrame H)) :
    (setLastDuration d l).dropLast = l.dropLast := by
  rcases eq_or_ne l [] with rfl | h
  · rfl
  · conv_lhs => rw [← List.dropLast_append_getLast h]
    rw [setLastDuration_concat, List.dropLast_concat]

theorem length_dedupGo_pos [DecidableEq H] (hashFn : ByteBuf → H) (delay : Nat)
    (l : List ByteBuf) : ∀ cur : UniqueFrame H, dedupGo hashFn delay cur l ≠ [] := by
  induction l with
  | nil => intro cur; simp [dedupGo]
  | cons b rest ih =>
      intro cur
      by_cases h : hashFn b = cur.hash
      · simp only [dedupGo, if_pos h]; exact ih _
      · simp [dedupGo, if_neg h]

theorem dedupFrames_ne_nil [DecidableEq H] (hashFn : ByteBuf → H) (delay : Nat)
    (frames : List ByteBuf) (h : frames ≠ []) : dedupFrames hashFn delay frames ≠ [] := by
  cases frames with
  | nil => exact absurd rfl h
  | cons b rest => exact length_dedupGo_pos hashFn delay rest _

end EndDelayLemmas

/-- C1: for every input frame sequence of `createAnimatedWebP`, the
duplicate-collapsing pass produces at most as many runs as input frames;
when the content hash is injective the run count equals the frame count
exactly when no two consecutive frames are byte-identical; and the hashes
of any two adjacent runs differ. -/
theorem dedup_run_count_and_adjacent_hashes {H : Type} [DecidableEq H]
    (hashFn : ByteBuf → H) (delay : Nat) (frames : List ByteBuf)
    (inj : Function.Injective hashFn) :
    (dedupFrames hashFn delay frames).length ≤ frames.length ∧
    ((dedupFrames hashFn delay frames).length = frames.length ↔
      List.Chain' (fun a b : ByteBuf => a ≠ b) frames) ∧
    List.Chain' (fun a b : UniqueFrame H => a.hash ≠ b.hash)
      (dedupFrames hashFn delay frames) :=
  ⟨length_dedupFrames_le hashFn delay frames,
   length_dedupFrames_eq_iff hashFn delay inj frames,
   chain_hash_dedupFrames hashFn delay frames⟩

/-- Witness for C1 at hash = identity, delay = 100 ms, frames
`[[0], [0], [1]]` (first two byte-identical): the run count is 2 < 3. -/
theorem dedup_run_count_and_adjacent_hashes_witness :
    Function.Injective (id : ByteBuf → ByteBuf) ∧
    ((dedupFrames (id : ByteBuf → ByteBuf) 100 [[0], [0], [1]]).length ≤
        ([[0], [0], [1]] : List ByteBuf).length ∧
      ((dedupFrames (id : ByteBuf → ByteBuf) 100 [[0], [0], [1]]).length =
          ([[0], [0], [1]] : List ByteBuf).length ↔
        List.Chain' (fun a b : ByteBuf => a ≠ b) [[0], [0], [1]]) ∧
      List.Chain' (fun a b : UniqueFrame ByteBuf => a.hash ≠ b.hash)
        (dedupFrames (id : ByteBuf → ByteBuf) 100 [[0], [0], [1]])) ∧
    (dedupFrames (id : ByteBuf → ByteBuf) 100 [[0], [0], [1]]).length = 2 :=
  ⟨Function.injective_id,
   dedup_run_count_and_adjacent_hashes id 100 [[0], [0], [1]] Function.injective_id,
   by decide⟩

/-- C2 counterexample: with a supplied end-delay override of `0` the final
run's duration is not overwritten — the JavaScript truthiness test
`if (endDelay && ...)` skips a zero override, so for frames `[[0]]` with
base delay 100 the final duration stays 100, not the supplied 0. -/
theorem endDelay_zero_not_applied :
    ¬ (((applyEndDelay (some 0)
          (dedupFrames (id : ByteBuf → ByteBuf) 100 [[0]])).getLast?).map
        UniqueFrame.duration = some 0) := by decide

/-- C2 (amended to a nonzero override): for every non-empty frame sequence
and nonzero end-delay override, the final run's duration after assembly
equals the override regardless of how many frames were collapsed into it,
every earlier run is unchanged, and the pre-override durations are exactly
the base delay times the number of frames collapsed into each run (each
run's duration is a positive multiple of the base delay and they sum to
delay × frame count). -/
theorem applyEndDelay_final_run {H : Type} [DecidableEq H]
    (hashFn : ByteBuf → H) (delay : Nat) (frames : List ByteBuf) (d : Nat)
    (hd : d ≠ 0) (hf : frames ≠ []) :
    ((applyEndDelay (some d) (dedupFrames hashFn delay frames)).getLast?).map
        UniqueFrame.duration = some d ∧
    (applyEndDelay (some d) (dedupFrames hashFn delay frames)).dropLast =
      (dedupFrames hashFn delay frames).dropLast ∧
    ((dedupFrames hashFn delay frames).map UniqueFrame.duration).sum =
      delay * frames.length ∧
    (∀ r ∈ dedupFrames hashFn delay frames, ∃ k, 0 < k ∧ r.duration = delay * k) := by
  have hne := dedupFrames_ne_nil hashFn delay frames hf
  refine ⟨?_, ?_, sum_durations_dedupFrames hashFn delay frames,
    duration_mem_dedupFrames hashFn delay frames⟩
  · rw [applyEndDelay, if_pos hd]
    exact setLastDuration_getLast d _ hne
  · rw [applyEndDelay, if_pos hd]
    exact setLastDuration_dropLast d _

/-- Witness for C2 at hash = identity, delay = 100, frames
`[[0], [0], [1]]`, override 4000: the final run's duration is 4000. -/
theorem applyEndDelay_final_run_witness :
    (4000 : Nat) ≠ 0 ∧ ([[0], [0], [1]] : List ByteBuf) ≠ [] ∧
    (((applyEndDelay (some 4000)
          (dedupFrames (id : ByteBuf → ByteBuf) 100 [[0], [0], [1]])).getLast?).map
        UniqueFrame.duration = some 4000 ∧
      (applyEndDelay (some 4000)
          (dedupFrames (id : ByteBuf → ByteBuf) 100 [[0], [0], [1]])).dropLast =
        (dedupFrames (id : ByteBuf → ByteBuf) 100 [[0], [0], [1]]).dropLast ∧
      ((dedupFrames (id : ByteBuf → ByteBuf) 100 [[0], [0], [1]]).map
          UniqueFrame.duration).sum = 100 * ([[0], [0], [1]] : List ByteBuf).length ∧
      (∀ r ∈ dedupFrames (id : ByteBuf → ByteBuf) 100 [[0], [0], [1]],
        ∃ k, 0 < k ∧ r.duration = 100 * k)) :=
  ⟨by decide, by decide,
   applyEndDelay_final_run id 100 [[0], [0], [1]] 4000 (by decide) (by decide)⟩

/-- C3: the frame-sampling interval is 2 s whenever the output is not
persisted as an animated asset (no truthy directory, or effective format
png), and otherwise 0.1 s for duration ≤ 5, 0.2 s for 5 < duration ≤ 10
and 0.5 s for duration > 10; in particular the four quoted values hold. -/
theorem screencast_interval_policy (duration : ℚ) (directory : Option String)
    (format : Option ScreencastFormat) :
    (willPersistAsAnimation directory format = false →
      decideScreencastInterval duration (willPersistAsAnimation directory format) = 2) ∧
    (willPersistAsAnimation directory format = true →
      ((duration ≤ 5 →
        decideScreencastInterval duration (willPersistAsAnimation directory format) = 1/10) ∧
       (5 < duration → duration ≤ 10 →
        decideScreencastInterval duration (willPersistAsAnimation directory format) = 1/5) ∧
       (10 < duration →
        decideScreencastInterval duration (willPersistAsAnimation directory format) = 1/2))) ∧
    (willPersistAsAnimation directory format = false ↔
      (dirTruthy directory = false ∨ effectiveFormat format = ScreencastFormat.png)) ∧
    decideScreencastInterval 5 true = 1/10 ∧
    decideScreencastInterval 10 true = 1/5 ∧
    decideScreencastInterval 11 true = 1/2 ∧
    decideScreencastInterval duration false = 2 := by
  refine ⟨?_, ?_, ?_, by norm_num [decideScreencastInterval],
    by norm_num [decideScreencastInterval], by norm_num [decideScreencastInterval],
    by simp [decideScreencastInterval]⟩
  · intro h
    rw [h]
    simp [decideScreencastInterval]
  · intro h
    rw [h]
    refine ⟨?_, ?_, ?_⟩
    · intro h5
      simp [decideScreencastInterval, h5]
    · intro h5 h10
      simp [decideScreencastInterval, h5.not_le, h10]
    · intro h10
      have h5 : (5 : ℚ) < duration := lt_trans (by norm_num) h10
      simp [decideScreencastInterval, h5.not_le, h10.not_le]
  · cases hf : effectiveFormat format <;> cases hd : dirTruthy directory <;>
      simp [willPersistAsAnimation, hf, hd]

/-- Witness for C3 at duration 7, directory "out", format webp: the
persisted-animation interval in the middle band is 0.2 s. -/
theorem screencast_interval_policy_witness :
    willPersistAsAnimation (some "out") (some ScreencastFormat.webp) = true ∧
    (5 : ℚ) < 7 ∧ (7 : ℚ) ≤ 10 ∧
    decideScreencastInterval 7
      (willPersistAsAnimation (some "out") (some ScreencastFormat.webp)) = 1/5 :=
  ⟨by decide, by norm_num, by norm_num,
    ((screencast_interval_policy 7 (some "out")
        (some ScreencastFormat.webp)).2.1 (by decide)).2.1 (by norm_num) (by norm_num)⟩

/-- C5 counterexample: explicitly supplying the default animated format
(`webp`) without a directory IS rejected — `if (args.format &&
!args.directory)` tests only that some format string was supplied, so the
claim that the default format without a directory is not an error fails. -/
theorem webp_without_directory_is_error :
    validateScreencastFormat (some ScreencastFormat.webp) none =
      Except.error
        "The \"format\" parameter can only be used when \"directory\" parameter is specified" :=
  rfl

/-- C5 (amended): ANY explicitly supplied `format` value (png or webp)
combined with no truthy `outputDirectory` is rejected as a caller error
before the engine-call options are ever built, while a request that omits
the `format` parameter entirely is never rejected by this check. -/
theorem screencast_format_validation (args : ScreencastArgs) :
    (validateScreencastFormat args.format args.directory = Except.ok () ↔
      (args.format = none ∨ dirTruthy args.directory = true)) ∧
    (args.format.isSome = true → dirTruthy args.directory = false →
      screencastEngineCall args =
        Except.error
          "The \"format\" parameter can only be used when \"directory\" parameter is specified") ∧
    (args.format = none →
      screencastEngineCall args = Except.ok (buildCaptureScreencastOptions args)) := by
  refine ⟨?_, ?_, ?_⟩
  · cases hf : args.format <;> cases hd : dirTruthy args.directory <;>
      simp [validateScreencastFormat, hf, hd]
  · intro hf hd
    rw [screencastEngineCall]
    have hfs : args.format.isSome = true := hf
    simp [validateScreencastFormat, hfs, hd]
  · intro hf
    rw [screencastEngineCall]
    simp [validateScreencastFormat, hf]

/-- Witness for C5 at format png, no directory: the handler rejects the
request before building the engine call. -/
theorem screencast_format_validation_witness :
    samplePngNoDirArgs.format.isSome = true ∧
    dirTruthy samplePngNoDirArgs.directory = false ∧
    screencastEngineCall samplePngNoDirArgs =
      Except.error
        "The \"format\" parameter can only be used when \"directory\" parameter is specified" :=
  ⟨by decide, by decide,
    (screencast_format_validation samplePngNoDirArgs).2.1 (by decide) (by decide)⟩

/-- C10: for every `take_screencast` request the engine is called with
`waitFor = undefined` — any caller-supplied extra wait time is dropped —
while the `take_screenshot` path forwards its `waitForMS` argument to the
engine unchanged. -/
theorem screencast_waitFor_dropped (a : ScreencastArgs) (b : ScreenshotArgs) :
    (buildCaptureScreencastOptions a).waitFor = none ∧
    (buildCaptureScreenshotOptions b).waitFor = b.waitForMS :=
  ⟨rfl, rfl⟩

/-- C4: when the animated-WebP encoder fails during a directory-targeted
webp screencast, the handler still returns a successful response: the
write set is exactly the one the png-format path would produce (every
captured frame as an individual PNG), the response text starts with the
explicit fallback warning, and the encoding failure is not propagated as
a request error. -/
theorem webp_encoder_failure_fallback (directory hostname : String)
    (ts : Nat → String) (frames : List ByteBuf)
    (durationText intervalText intervalMsText qualityText : String) (e : String) :
    screencastDirectoryBranch directory hostname ts ScreencastFormat.webp frames
        durationText intervalText intervalMsText qualityText (Except.error e) =
      Except.ok (screencastDirectorySave directory hostname ts ScreencastFormat.webp
        frames durationText intervalText intervalMsText qualityText none) ∧
    (screencastDirectorySave directory hostname ts ScreencastFormat.webp frames
        durationText intervalText intervalMsText qualityText none).writes =
      (screencastDirectorySave directory hostname ts ScreencastFormat.png frames
        durationText intervalText intervalMsText qualityText none).writes ∧
    (screencastDirectorySave directory hostname ts ScreencastFormat.webp frames
        durationText intervalText intervalMsText qualityText none).writes.map
        FileWrite.content = frames ∧
    ∃ rest : String,
      (screencastDirectorySave directory hostname ts ScreencastFormat.webp frames
        durationText intervalText intervalMsText qualityText none).text =
        "⚠️  WebP creation failed" ++ rest := by
  refine ⟨rfl, rfl, ?_, ?_⟩
  · show (fallbackFrameWrites directory hostname ts frames).map FileWrite.content = frames
    rw [fallbackFrameWrites, List.map_map]
    exact List.enum_map_snd frames
  · refine ⟨", saved as PNG frames:\n" ++
      joinLines ((fallbackFrameWrites directory hostname ts frames).map FileWrite.path) ++
      "\n\nDuration: " ++ durationText ++ "s\nFrames: " ++ toString frames.length ++
      "\nInterval: " ++ intervalText ++ "s", ?_⟩
    show webpFallbackText ((fallbackFrameWrites directory hostname ts frames).map
        FileWrite.path) durationText frames.length intervalText = _
    rw [webpFallbackText]
    have hlit : ("⚠️  WebP creation failed, saved as PNG frames:\n" : String) =
        "⚠️  WebP creation failed" ++ ", saved as PNG frames:\n" := rfl
    rw [hlit]
    simp only [String.append_assoc]

/-- C8 counterexample: the animated-WebP asset written by the screencast
materializer is not named with the claimed `.png` extension — for hostname
"example.com" and capture timestamp "2024-01-01T00:00:00.000Z" the single
write of the webp-success path targets `....webp`, whose last four
characters are not ".png". -/
theorem webp_asset_filename_not_png :
    (screencastDirectorySave "/out" "example.com"
        (fun _ => "2024-01-01T00:00:00.000Z") ScreencastFormat.webp [[0]]
        "6" "0.2" "200" "medium" (some [9])).writes =
      [{ path := "/out/screencast_example_com_2024-01-01T00-00-00-000Z.webp",
         content := [9] }] ∧
    ¬ (("/out/screencast_example_com_2024-01-01T00-00-00-000Z.webp" :
        String).data.reverse.take 4 = (".png" : String).data.reverse) := by
  constructor
  · rfl
  · decide

/-- C8 (amended): every PNG file written by screenshot or screencast
materialization is named `<prefix>_<sanitizedHostname>_<captureTimestamp>`
`[_frame<N>].png`, the hostname is sanitized to alphanumeric-plus-
underscore characters, the sanitized timestamp (free of the colons and
dots of ISO format) appears in every generated name, and the animated
asset uses the same stem with extension `.webp` instead of `.png`. -/
theorem generated_filename_pattern (hostname iso : String) (index : Option Nat)
    (pre : String) (directory : String) (ts : Nat → String)
    (frames tiles : List ByteBuf) (buf : ByteBuf) :
    generateFilename hostname iso index pre =
      filenameStem hostname iso index pre ++ ".png" ∧
    (∃ a b : String,
      generateFilename hostname iso index pre = a ++ sanitizeTimestamp iso ++ b) ∧
    (∀ c ∈ (sanitizeHostname hostname).data, c.isAlphanum = true ∨ c = '_') ∧
    (∀ c ∈ (sanitizeTimestamp iso).data, c ≠ ':' ∧ c ≠ '.') ∧
    (∀ w ∈ pngFrameWrites directory hostname ts frames,
      ∃ i, w.path = joinPath directory (generateFilename hostname (ts i) (some i) "frame")) ∧
    (∀ w ∈ screenshotTileWrites directory hostname ts tiles,
      ∃ i, w.path =
        joinPath directory (generateFilename hostname (ts i) (some i) "screenshot")) ∧
    (screenshotSingleWrite directory hostname iso buf).path =
      joinPath directory (generateFilename hostname iso none "screenshot") ∧
    webpFilename hostname iso = filenameStem hostname iso none "screencast" ++ ".webp" := by
  refine ⟨rfl, ?_, ?_, ?_, ?_, ?_, rfl, rfl⟩
  · refine ⟨pre ++ "_" ++ sanitizeHostname hostname ++ "_",
      (match index with
        | some i => "_frame" ++ toString (i + 1)
        | none => "") ++ ".png", ?_⟩
    cases index <;> simp [generateFilename, filenameStem, String.append_assoc]
  · intro c hc
    rw [sanitizeHostname] at hc
    simp only [String.data] at hc
    rw [List.mem_map] at hc
    obtain ⟨c', _, hc'⟩ := hc
    by_cases h : c'.isAlphanum
    · left; rw [← hc']; simp [h]
    · right; rw [← hc']; simp [h]
  · intro c hc
    rw [sanitizeTimestamp] at hc
    simp only [String.data] at hc
    rw [List.mem_map] at hc
    obtain ⟨c', _, hc'⟩ := hc
    by_cases h : c' = ':' ∨ c' = '.'
    · rw [← hc']; simp [h]
    · push_neg at h
      rw [← hc']
      simp only [if_neg (by tauto : ¬(c' = ':' ∨ c' = '.'))]
      exact h
  · intro w hw
    rw [pngFrameWrites, List.mem_map] at hw
    obtain ⟨p, _, hp⟩ := hw
    exact ⟨p.1, by rw [← hp]⟩
  · intro w hw
    rw [screenshotTileWrites, List.mem_map] at hw
    obtain ⟨p, _, hp⟩ := hw
    exact ⟨p.1, by rw [← hp]⟩

/-- Witness for C8's amended statement at hostname "example.com" and a
fixed capture timestamp. -/
theorem generated_filename_pattern_witness :
    generateFilename "example.com" "2024-01-01T00:00:00.000Z" (some 0) "frame" =
      filenameStem "example.com" "2024-01-01T00:00:00.000Z" (some 0) "frame" ++ ".png" ∧
    (∃ a b : String,
      generateFilename "example.com" "2024-01-01T00:00:00.000Z" (some 0) "frame" =
        a ++ sanitizeTimestamp "2024-01-01T00:00:00.000Z" ++ b) ∧
    (∀ c ∈ (sanitizeHostname "example.com").data, c.isAlphanum = true ∨ c = '_') ∧
    (∀ c ∈ (sanitizeTimestamp "2024-01-01T00:00:00.000Z").data, c ≠ ':' ∧ c ≠ '.') ∧
    (∀ w ∈ pngFrameWrites "/out" "example.com"
        (fun _ => "2024-01-01T00:00:00.000Z") [[0]],
      ∃ i, w.path = joinPath "/out"
        (generateFilename "example.com" "2024-01-01T00:00:00.000Z" (some i) "frame")) ∧
    (∀ w ∈ screenshotTileWrites "/out" "example.com"
        (fun _ => "2024-01-01T00:00:00.000Z") [[1]],
      ∃ i, w.path = joinPath "/out"
        (generateFilename "example.com" "2024-01-01T00:00:00.000Z" (some i) "screenshot")) ∧
    (screenshotSingleWrite "/out" "example.com" "2024-01-01T00:00:00.000Z" [2]).path =
      joinPath "/out"
        (generateFilename "example.com" "2024-01-01T00:00:00.000Z" none "screenshot") ∧
    webpFilename "example.com" "2024-01-01T00:00:00.000Z" =
      filenameStem "example.com" "2024-01-01T00:00:00.000Z" none "screencast" ++ ".webp" :=
  generated_filename_pattern "example.com" "2024-01-01T00:00:00.000Z" (some 0)
    "frame" "/out" (fun _ => "2024-01-01T00:00:00.000Z") [[0]] [[1]] [2]

/-- C6: `createAnimatedWebP` removes its scoped temporary directory as
the last effect of every call — whether the encoder invocation succeeds
or fails — and an encoder failure is re-raised to the caller unchanged
rather than swallowed inside the assembler. -/
theorem createAnimatedWebP_cleanup_and_reraise {H : Type} [DecidableEq H]
    (hashFn : ByteBuf → H) (platform : String) (frames : List ByteBuf)
    (delay : Nat) (endDelay : Option Nat) (quality : Quality)
    (encoder : Except String ByteBuf) :
    ((createAnimatedWebPRun hashFn platform frames delay endDelay quality
        encoder).1).getLast? = some FsEvent.rmTempDir ∧
    FsEvent.rmTempDir ∈
      (createAnimatedWebPRun hashFn platform frames delay endDelay quality
        encoder).1 ∧
    (createAnimatedWebPRun hashFn platform frames delay endDelay quality
        encoder).2 = encoder := by
  cases encoder with
  | ok b => exact ⟨List.getLast?_concat _, by simp [createAnimatedWebPRun], rfl⟩
  | error e => exact ⟨List.getLast?_concat _, by simp [createAnimatedWebPRun], rfl⟩

/-- C7 counterexample: on the unsupported platform "win32" the assembler
raises no configuration error at all — the binary resolves to the linux
one, the temporary directory is still created as the first effect, and
the call proceeds to a normal result. -/
theorem unsupported_platform_no_config_error :
    selectBinaryName "win32" = "img2webp-linux" ∧
    ((createAnimatedWebPRun (id : ByteBuf → ByteBuf) "win32" [[0]] 100
        (some 4000) Quality.medium (Except.ok [1, 2, 3])).1).head? =
      some FsEvent.mkTempDir ∧
    (createAnimatedWebPRun (id : ByteBuf → ByteBuf) "win32" [[0]] 100
        (some 4000) Quality.medium (Except.ok [1, 2, 3])).2 =
      Except.ok [1, 2, 3] := by
  refine ⟨rfl, rfl, rfl⟩

/-- C7 (amended): the encoder binary path is resolved from the platform
at each call — darwin selects the darwin binary and every other platform
(including unsupported ones) silently selects the linux binary, with no
unsupported-OS error: the temporary directory is created and the selected
binary is invoked regardless of platform. -/
theorem createAnimatedWebP_binary_resolution {H : Type} [DecidableEq H]
    (hashFn : ByteBuf → H) (platform : String) (frames : List ByteBuf)
    (delay : Nat) (endDelay : Option Nat) (quality : Quality)
    (encoder : Except String ByteBuf) (hp : platform ≠ "darwin") :
    selectBinaryName "darwin" = "img2webp-darwin" ∧
    selectBinaryName platform = "img2webp-linux" ∧
    ((createAnimatedWebPRun hashFn platform frames delay endDelay quality
        encoder).1).head? = some FsEvent.mkTempDir ∧
    FsEvent.execEncoder (selectBinaryName platform)
        (img2webpArgs quality (applyEndDelay endDelay (dedupFrames hashFn delay frames))) ∈
      (createAnimatedWebPRun hashFn platform frames delay endDelay quality
        encoder).1 := by
  refine ⟨rfl, ?_, ?_, ?_⟩
  · simp [selectBinaryName, hp]
  · cases encoder <;> simp [createAnimatedWebPRun]
  · cases encoder <;> simp [createAnimatedWebPRun]

/-- Witness for C7's amended statement on the platform "win32". -/
theorem createAnimatedWebP_binary_resolution_witness :
    ("win32" : String) ≠ "darwin" ∧
    (selectBinaryName "darwin" = "img2webp-darwin" ∧
      selectBinaryName "win32" = "img2webp-linux" ∧
      ((createAnimatedWebPRun (id : ByteBuf → ByteBuf) "win32" [[0]] 100
          (some 4000) Quality.medium (Except.ok [1, 2, 3])).1).head? =
        some FsEvent.mkTempDir ∧
      FsEvent.execEncoder (selectBinaryName "win32")
          (img2webpArgs Quality.medium
            (applyEndDelay (some 4000)
              (dedupFrames (id : ByteBuf → ByteBuf) 100 [[0]]))) ∈
        (createAnimatedWebPRun (id : ByteBuf → ByteBuf) "win32" [[0]] 100
          (some 4000) Quality.medium (Except.ok [1, 2, 3])).1) :=
  ⟨by decide,
    createAnimatedWebP_binary_resolution id "win32" [[0]] 100 (some 4000)
      Quality.medium (Except.ok [1, 2, 3]) (by decide)⟩

/-- C9: the effective viewport width (and height for screencast) is the
minimum of the requested value and 1072, defaulting to 1072 when omitted;
and the truncation is silent for both tools — the entire `take_screenshot`
response (inline or directory-targeted, writes and content alike) and the
entire `take_screencast` response are identical for any two over-cap
requested widths/heights, for every engine, encoder outcome, clock and
number rendering, so no part of either response can report that a larger
requested value was capped. -/
theorem viewport_cap_silent (sEngine : CaptureScreenshotOptions → ScreenshotResult)
    (cEngine : CaptureScreencastOptions → ScreencastResult)
    (encoder : Except String ByteBuf) (hostname : String) (ts : Nat → String)
    (showQ : ℚ → String) (args : ScreenshotArgs) (cargs : ScreencastArgs)
    (v w₁ w₂ h₁ h₂ : Nat) (hw₁ : 1072 ≤ w₁) (hw₂ : 1072 ≤ w₂)
    (hh₁ : 1072 ≤ h₁) (hh₂ : 1072 ≤ h₂) :
    (buildCaptureScreenshotOptions { args with width := some v }).viewportWidth =
      min v 1072 ∧
    (buildCaptureScreenshotOptions { args with width := none }).viewportWidth = 1072 ∧
    (buildCaptureScreencastOptions { cargs with width := some v }).viewportWidth =
      min v 1072 ∧
    (buildCaptureScreencastOptions { cargs with height := some v }).viewportHeight =
      min v 1072 ∧
    (buildCaptureScreencastOptions { cargs with width := none }).viewportWidth = 1072 ∧
    (buildCaptureScreencastOptions { cargs with height := none }).viewportHeight = 1072 ∧
    takeScreenshotHandler sEngine hostname ts { args with width := some w₁ } =
      takeScreenshotHandler sEngine hostname ts { args with width := some w₂ } ∧
    takeScreencastHandler cEngine encoder hostname ts showQ
        { cargs with width := some w₁, height := some h₁ } =
      takeScreencastHandler cEngine encoder hostname ts showQ
        { cargs with width := some w₂, height := some h₂ } := by
  refine ⟨rfl, rfl, rfl, rfl, rfl, rfl, ?_, ?_⟩
  · have hopts : buildCaptureScreenshotOptions { args with width := some w₁ } =
        buildCaptureScreenshotOptions { args with width := some w₂ } := by
      simp [buildCaptureScreenshotOptions, min_eq_right hw₁, min_eq_right hw₂]
    simp only [takeScreenshotHandler, hopts]
  · have hopts : buildCaptureScreencastOptions
          { cargs with width := some w₁, height := some h₁ } =
        buildCaptureScreencastOptions
          { cargs with width := some w₂, height := some h₂ } := by
      simp [buildCaptureScreencastOptions, min_eq_right hw₁, min_eq_right hw₂,
        min_eq_right hh₁, min_eq_right hh₂]
    simp only [takeScreencastHandler, hopts]

/-- Witness for C9 at requested widths 5000 and 1072 and heights 2000 and
1072 (all at or above the cap) with concrete engines, encoder outcome,
clock and rendering: both tools' responses coincide. -/
theorem viewport_cap_silent_witness :
    1072 ≤ 5000 ∧ 1072 ≤ 1072 ∧ 1072 ≤ 2000 ∧
    ((buildCaptureScreenshotOptions
        { sampleScreenshotArgs with width := some 500 }).viewportWidth =
      min 500 1072 ∧
    (buildCaptureScreenshotOptions
        { sampleScreenshotArgs with width := none }).viewportWidth = 1072 ∧
    (buildCaptureScreencastOptions
        { sampleScreencastArgs with width := some 500 }).viewportWidth =
      min 500 1072 ∧
    (buildCaptureScreencastOptions
        { sampleScreencastArgs with height := some 500 }).viewportHeight =
      min 500 1072 ∧
    (buildCaptureScreencastOptions
        { sampleScreencastArgs with width := none }).viewportWidth = 1072 ∧
    (buildCaptureScreencastOptions
        { sampleScreencastArgs with height := none }).viewportHeight = 1072 ∧
    takeScreenshotHandler sampleEngine "example.com"
        (fun _ => "2024-01-01T00:00:00.000Z")
        { sampleScreenshotArgs with width := some 5000 } =
      takeScreenshotHandler sampleEngine "example.com"
        (fun _ => "2024-01-01T00:00:00.000Z")
        { sampleScreenshotArgs with width := some 1072 } ∧
    takeScreencastHandler sampleScreencastEngine (Except.ok [9]) "example.com"
        (fun _ => "2024-01-01T00:00:00.000Z") sampleShowQ
        { sampleScreencastArgs with width := some 5000, height := some 2000 } =
      takeScreencastHandler sampleScreencastEngine (Except.ok [9]) "example.com"
        (fun _ => "2024-01-01T00:00:00.000Z") sampleShowQ
        { sampleScreencastArgs with width := some 1072, height := some 1072 }) :=
  ⟨by norm_num, by norm_num, by norm_num,
    viewport_cap_silent sampleEngine sampleScreencastEngine (Except.ok [9])
      "example.com" (fun _ => "2024-01-01T00:00:00.000Z") sampleShowQ
      sampleScreenshotArgs sampleScreencastArgs 500 5000 1072 2000 1072
      (by norm_num) (by norm_num) (by norm_num) (by norm_num)⟩

end ScreenshotFast
